import Mathlib

/-!
# Verification of the `abssas` replica client (litestream remote-storage adapter)

Shallow embedding of `src/abssas/replica_sasclient.go` and of the litestream
path-codec collaborators it calls.  Go strings are modelled as `List Char`
(the keys involved are ASCII, so character order coincides with Go's bytewise
string order); Go's `error` results become `Option`/`Except` values; the
remote object store (Azure blob API) is modelled by explicit oracles: a list
of listing pages for the paginated LIST calls, and key-indexed functions for
DELETE / GET / PUT outcomes.  The iterator goroutine-plus-channel machinery is
sequentialised: the background fetch loop is a function from the listing pages
to the ordered list of entries it streams into the channel together with the
error value the goroutine returns; the consumer side (`Next`/`Err`/`Close`)
is a step function on an explicit iterator state.
-/

set_option maxRecDepth 10000

namespace Abssas

/-- Go strings, as lists of characters (bytewise order = char order on ASCII). -/
abbrev GoStr := List Char

instance {e a : Type} [DecidableEq e] [DecidableEq a] : DecidableEq (Except e a) := by
  intro x y
  cases x <;> cases y
  case error.error u v =>
    by_cases h : u = v
    · exact isTrue (by rw [h])
    · exact isFalse (fun hc => h (by cases hc; rfl))
  case error.ok u v => exact isFalse (fun hc => by cases hc)
  case ok.error u v => exact isFalse (fun hc => by cases hc)
  case ok.ok u v =>
    by_cases h : u = v
    · exact isTrue (by rw [h])
    · exact isFalse (fun hc => h (by cases hc; rfl))

/-- Go `strings.TrimPrefix(s, pre)`: drop `pre` when it is a prefix, else `s`. -/
def goTrimPrefix (s pre : GoStr) : GoStr :=
  if pre.isPrefixOf s then s.drop pre.length else s

/-- Go `strings.Split(s, sep)` for a one-character separator: split around every
occurrence of `sep`; always returns at least one (possibly empty) part. -/
def goSplit : GoStr → Char → List GoStr
  | [], _ => [[]]
  | c :: cs, sep =>
    if c = sep then [] :: goSplit cs sep
    else
      match goSplit cs sep with
      | [] => [[c]]
      | h :: t => (c :: h) :: t

/-- Go `strings.Join(parts, sep)` for a one-character separator. -/
def goJoin : List GoStr → Char → GoStr
  | [], _ => []
  | [p], _ => p
  | p :: ps, sep => p ++ sep :: goJoin ps sep

/-- A parsed URL (`net/url.URL`), reduced to the components the adapter
touches: the path (read and rewritten) and the other components (scheme,
host, raw query) that are carried along unaltered. -/
structure URL where
  scheme : GoStr
  host : GoStr
  path : GoStr
  rawQuery : GoStr
deriving DecidableEq, Repr

/-- The `ReplicaClient` struct's immutable configuration fields
(`container`, `path`, `sasURL`).  The mutex-guarded `containerURL` handle is
modelled separately as the explicit `Option ContainerHandle` state threaded
through `clientInit`. -/
structure ReplicaClient where
  container : GoStr
  path : GoStr
  sasURL : GoStr
deriving DecidableEq, Repr

/-- Errors `NewReplicaClient` can return: the `url.Parse` error, or the
`"invalid SAS URL format: missing container name"` error. -/
inductive NewClientError
  | parseError (e : GoStr)
  | missingContainer
deriving DecidableEq, Repr

/-- Model of `NewReplicaClient(sasUrl)`: parse the URL, split its path on `/` after
trimming one leading slash; the first segment is the container name, the
remaining segments joined by `/` are the key prefix.  `url.Parse` (Go
standard library) is abstracted as an arbitrary function argument
`parseURL : GoStr → Except GoStr URL`; being a function, it is deterministic,
which is the only property of `url.Parse` the code relies on. -/
def newReplicaClient (parseURL : GoStr → Except GoStr URL) (sasUrl : GoStr) :
    Except NewClientError ReplicaClient :=
  match parseURL sasUrl with
  | .error e => .error (.parseError e)
  | .ok u =>
    let pathParts := goSplit (goTrimPrefix u.path ['/']) '/'
    if pathParts.length < 1 then .error .missingContainer
    else
      let container := pathParts.headD []
      let path := if pathParts.length > 1 then goJoin pathParts.tail '/' else []
      .ok { container := container, path := path, sasURL := sasUrl }

/-- The cached `azblob.ContainerURL` handle, reduced to the URL it was built
from (the anonymous-credential pipeline and retry options carry no state the
spec claims touch). -/
structure ContainerHandle where
  url : URL
deriving DecidableEq, Repr

/-- Model of `ReplicaClient.Init`: return the cached handle if present; otherwise
re-parse `c.sasURL` (wrapping a parse failure as `"cannot parse SAS URL"`),
copy the parsed URL, replace only its path with `"/" + container`, and cache
the resulting container handle. -/
def clientInit (parseURL : GoStr → Except GoStr URL) (c : ReplicaClient)
    (st : Option ContainerHandle) : Except GoStr ContainerHandle :=
  match st with
  | some h => .ok h
  | none =>
    match parseURL c.sasURL with
    | .error e => .error (("cannot parse SAS URL: ".data) ++ e)
    | .ok u => .ok { url := { u with path := '/' :: c.container } }

/-- Go `path.Base`: `"."` for the empty path, otherwise strip trailing
slashes and keep the part after the last remaining slash (all of `"/"`
collapses to `"/"`). -/
def goPathBase (s : GoStr) : GoStr :=
  if s = [] then ['.']
  else
    let t := (s.reverse.dropWhile (fun c => c = '/')).reverse
    if t = [] then ['/']
    else (t.reverse.takeWhile (fun c => c ≠ '/')).reverse

/-- Go `path.Join` restricted to two components, skipping empty ones (the
`Clean` normalisation is irrelevant here: every component the adapter joins
is already clean). -/
def goPathJoin (a b : GoStr) : GoStr :=
  if a = [] then b else if b = [] then a else a ++ '/' :: b

/-- Lowercase-hex-digit test: `[0-9a-f]`. -/
def isHexDigit (c : Char) : Bool :=
  (48 ≤ c.toNat && c.toNat ≤ 57) || (97 ≤ c.toNat && c.toNat ≤ 102)

/-- Numeric value of a lowercase hex digit. -/
def hexVal (c : Char) : Nat :=
  if c.toNat ≤ 57 then c.toNat - 48 else c.toNat - 87

/-- Value of a most-significant-digit-first hex string. -/
def hexToNat : GoStr → Nat
  | [] => 0
  | c :: s => hexVal c * 16 ^ s.length + hexToNat s

/-- Go `fmt.Sprintf("%0*x", w, n)` for non-negative `n`: lowercase hex
zero-padded on the left to width `w`. -/
def natToHexPad (w n : Nat) : GoStr :=
  let s := Nat.toDigits 16 n
  List.replicate (w - s.length) '0' ++ s

/-- Modelled from the spec: `litestream.IsGenerationName`, the generation
well-formedness predicate (§3/§4.1: fixed length, hex charset); the function
itself lives in the litestream root package, outside `src/`. -/
def isGenerationName (s : GoStr) : Bool :=
  s.length = 16 && s.all isHexDigit

/-- Modelled from the spec: `litestream.GenerationsPath(root)` (§4.1
`generationsPrefix`), the prefix under which all generations live. -/
def generationsPath (root : GoStr) : GoStr :=
  goPathJoin root "generations".data

/-- Modelled from the spec: `litestream.GenerationPath(root, generation)`
(§4.1 `generationPrefix`), failing on a malformed generation name. -/
def generationPath (root gen : GoStr) : Except GoStr GoStr :=
  if isGenerationName gen then .ok (goPathJoin (generationsPath root) gen)
  else .error ("invalid generation name".data)

/-- Modelled from the spec: `litestream.SnapshotsPath(root, generation)`
(§4.1 `snapshotsPrefix`). -/
def snapshotsPath (root gen : GoStr) : Except GoStr GoStr :=
  (generationPath root gen).map (fun dir => goPathJoin dir "snapshots".data)

/-- Modelled from the spec: `litestream.SnapshotPath(root, generation, index)`
(§4.1 `snapshotKey`): index rendered as fixed-width zero-padded hex with a
`.snapshot.lz4` suffix. -/
def snapshotPath (root gen : GoStr) (index : Nat) : Except GoStr GoStr :=
  (snapshotsPath root gen).map
    (fun dir => goPathJoin dir (natToHexPad 8 index ++ ".snapshot.lz4".data))

/-- Modelled from the spec: `litestream.WALPath(root, generation)` (§4.1
`walPrefix`). -/
def walPath (root gen : GoStr) : Except GoStr GoStr :=
  (generationPath root gen).map (fun dir => goPathJoin dir "wal".data)

/-- Modelled from the spec: `litestream.WALSegmentPath(root, generation,
index, offset)` (§4.1 `walSegmentKey`): index and offset rendered as
fixed-width zero-padded hex so lexicographic key order equals numeric order. -/
def walSegmentPath (root gen : GoStr) (index offset : Nat) : Except GoStr GoStr :=
  (walPath root gen).map
    (fun dir =>
      goPathJoin dir (natToHexPad 8 index ++ '_' :: (natToHexPad 8 offset ++ ".wal.lz4".data)))

/-- Modelled from the spec: `litestream.ParseSnapshotPath(key)` (§4.1
`parseSnapshotKey`): exactly eight hex digits followed by `.snapshot.lz4`,
anything else is a malformed-key error. -/
def parseSnapshotKey (key : GoStr) : Except GoStr Nat :=
  if (key.take 8).length = 8 ∧ (key.take 8).all isHexDigit = true ∧
      key.drop 8 = ".snapshot.lz4".data then
    .ok (hexToNat (key.take 8))
  else .error ("invalid snapshot path".data)

/-- Modelled from the spec: `litestream.ParseWALSegmentPath(key)` (§4.1
`parseWalSegmentKey`): eight hex digits, `_`, eight hex digits, `.wal.lz4`. -/
def parseWALSegmentKey (key : GoStr) : Except GoStr (Nat × Nat) :=
  if (key.take 8).length = 8 ∧ (key.take 8).all isHexDigit = true ∧
      (key.drop 8).take 1 = ['_'] ∧
      (((key.drop 8).drop 1).take 8).length = 8 ∧
      (((key.drop 8).drop 1).take 8).all isHexDigit = true ∧
      ((key.drop 8).drop 1).drop 8 = ".wal.lz4".data then
    .ok (hexToNat (key.take 8), hexToNat (((key.drop 8).drop 1).take 8))
  else .error ("invalid wal segment path".data)

/-- Go's bytewise string order `s < t`, on ASCII (char code = byte value). -/
def lexLt : GoStr → GoStr → Bool
  | [], [] => false
  | [], _ :: _ => true
  | _ :: _, [] => false
  | a :: s, b :: t => a.toNat < b.toNat || (a = b && lexLt s t)

/-- An error coming back from the remote store: either an
`azblob.StorageError` carrying a service code, or any other error. -/
inductive RemoteErr
  | storage (serviceCode : GoStr)
  | other (msg : GoStr)
deriving DecidableEq, Repr

/-- The `azblob.ServiceCodeBlobNotFound` service code. -/
def serviceCodeBlobNotFound : GoStr := "BlobNotFound".data

/-- Model of `isNotExists(err)`: a type switch that recognises exactly a
`StorageError` whose service code is `BlobNotFound`; `nil` and every other
error kind give `false`. -/
def isNotExists : Option RemoteErr → Bool
  | some (.storage code) => code = serviceCodeBlobNotFound
  | _ => false

/-- Errors the facade operations return to their caller. -/
inductive ClientError
  /-- A wrapped path-codec failure (`"cannot determine … path"`). -/
  | pathError (msg : GoStr)
  /-- The generic `os.ErrNotExist`, the store-agnostic not-exist signal. -/
  | notExist
  /-- A remote error wrapped with an operation context and the failing key. -/
  | wrapped (context key : GoStr) (cause : RemoteErr)
  /-- A remote error propagated without wrapping. -/
  | remote (cause : RemoteErr)
deriving DecidableEq, Repr

/-- A wall-clock instant; `isUTC` records whether `.UTC()` was applied. -/
structure Time where
  wall : Int
  isUTC : Bool
deriving DecidableEq, Repr, Inhabited

/-- Model of `time.Time.UTC()`. -/
def toUTC (t : Time) : Time := { t with isUTC := true }

/-- One entry of a flat listing page (`azblob.BlobItemInternal`), reduced to
the fields the adapter reads: key, `ContentLength`, `CreationTime`. -/
structure BlobItem where
  name : GoStr
  contentLength : Int
  creationTime : Time
deriving DecidableEq, Repr

/-- Model of `litestream.SnapshotInfo`. -/
structure SnapshotInfo where
  generation : GoStr
  index : Nat
  size : Int
  createdAt : Time
deriving DecidableEq, Repr, Inhabited

/-- Model of `litestream.WALSegmentInfo`. -/
structure WALSegmentInfo where
  generation : GoStr
  index : Nat
  offset : Nat
  size : Int
  createdAt : Time
deriving DecidableEq, Repr, Inhabited

/-- Model of `litestream.Pos`, a WAL segment position. -/
structure Pos where
  generation : GoStr
  index : Nat
  offset : Nat
deriving DecidableEq, Repr

/-- Outcome oracle for single-object DELETE calls: the error (if any) the
remote returns when `blobURL.Delete` is invoked on a key.  The operations
below are modelled after a successful `Init` (which, for a constructed
client, never fails — see `clientInit`); they return the ordered trace of
keys on which `Delete` was actually invoked alongside the Go result. -/
abbrev DeleteOracle := GoStr → Option RemoteErr

/-- Model of `ReplicaClient.DeleteSnapshot`: compute the key, delete it; a
`BlobNotFound` outcome is success, any other error is wrapped with the key. -/
def deleteSnapshot (basePath gen : GoStr) (index : Nat) (oracle : DeleteOracle) :
    List GoStr × Except ClientError Unit :=
  match snapshotPath basePath gen index with
  | .error e => ([], .error (.pathError ("cannot determine snapshot path: ".data ++ e)))
  | .ok key =>
    let err := oracle key
    if isNotExists err then ([key], .ok ())
    else
      match err with
      | some e => ([key], .error (.wrapped "cannot delete snapshot".data key e))
      | none => ([key], .ok ())

/-- Model of `ReplicaClient.DeleteWALSegments`: walk the positions in order; a
path-codec failure or a non-not-found delete error aborts immediately;
`BlobNotFound` outcomes are skipped as success. -/
def deleteWALSegments (basePath : GoStr) (a : List Pos) (oracle : DeleteOracle) :
    List GoStr × Except ClientError Unit :=
  match a with
  | [] => ([], .ok ())
  | pos :: rest =>
    match walSegmentPath basePath pos.generation pos.index pos.offset with
    | .error e => ([], .error (.pathError ("cannot determine wal segment path: ".data ++ e)))
    | .ok key =>
      let err := oracle key
      if isNotExists err then
        let (tr, res) := deleteWALSegments basePath rest oracle
        (key :: tr, res)
      else
        match err with
        | some e => ([key], .error (.wrapped "cannot delete wal segment".data key e))
        | none =>
          let (tr, res) := deleteWALSegments basePath rest oracle
          (key :: tr, res)

/-- The body of `DeleteGeneration`'s page loop: delete each listed blob in
order; `BlobNotFound` is skipped, any other error aborts and is returned
unwrapped. -/
def deleteGenerationItems (items : List BlobItem) (oracle : DeleteOracle) :
    List GoStr × Except ClientError Unit :=
  match items with
  | [] => ([], .ok ())
  | item :: rest =>
    let err := oracle item.name
    if isNotExists err then
      let (tr, res) := deleteGenerationItems rest oracle
      (item.name :: tr, res)
    else
      match err with
      | some e => ([item.name], .error (.remote e))
      | none =>
        let (tr, res) := deleteGenerationItems rest oracle
        (item.name :: tr, res)

/-- A paginated flat listing, page by page in marker order: each
`ListBlobsFlatSegment` call either fails or yields a page of items. -/
abbrev Pages := List (Except RemoteErr (List BlobItem))

/-- The marker loop of `DeleteGeneration` over listing pages: a listing
error aborts with that error returned unwrapped; otherwise every item of the
page is deleted before the next page is requested. -/
def deleteGenerationPages (oracle : DeleteOracle) : Pages → List GoStr × Except ClientError Unit
  | [] => ([], .ok ())
  | .error e :: _ => ([], .error (.remote e))
  | .ok items :: rest =>
    let (tr, res) := deleteGenerationItems items oracle
    match res with
    | .error e => (tr, .error e)
    | .ok () =>
      let (tr2, res2) := deleteGenerationPages oracle rest
      (tr ++ tr2, res2)

/-- Model of `ReplicaClient.DeleteGeneration`: resolve the generation prefix, then
drive the page loop, deleting every listed object; a listing error aborts
with that error; per-object behaviour as in `deleteGenerationItems`. -/
def deleteGeneration (basePath gen : GoStr) (pages : Pages) (oracle : DeleteOracle) :
    List GoStr × Except ClientError Unit :=
  match generationPath basePath gen with
  | .error e => ([], .error (.pathError ("cannot determine generation path: ".data ++ e)))
  | .ok _dir => deleteGenerationPages oracle pages

/-- A successful `blobURL.Download` response, reduced to the fields read:
`ContentLength` and the body stream. -/
structure DownloadResp where
  contentLength : Int
  body : List Nat
deriving DecidableEq, Repr

/-- Outcome oracle for single-object GET calls. -/
abbrev DownloadOracle := GoStr → Except RemoteErr DownloadResp

/-- Model of `ReplicaClient.SnapshotReader`: compute the key and download it;
`BlobNotFound` becomes the generic `os.ErrNotExist`, any other error is
wrapped with the failing key. -/
def snapshotReader (basePath gen : GoStr) (index : Nat) (download : DownloadOracle) :
    Except ClientError DownloadResp :=
  match snapshotPath basePath gen index with
  | .error e => .error (.pathError ("cannot determine snapshot path: ".data ++ e))
  | .ok key =>
    match download key with
    | .error e =>
      if isNotExists (some e) then .error .notExist
      else .error (.wrapped "cannot start new reader".data key e)
    | .ok resp => .ok resp

/-- Model of `ReplicaClient.WALSegmentReader`: same shape as `snapshotReader` at the
WAL-segment key. -/
def walSegmentReader (basePath : GoStr) (pos : Pos) (download : DownloadOracle) :
    Except ClientError DownloadResp :=
  match walSegmentPath basePath pos.generation pos.index pos.offset with
  | .error e => .error (.pathError ("cannot determine wal segment path: ".data ++ e))
  | .ok key =>
    match download key with
    | .error e =>
      if isNotExists (some e) then .error .notExist
      else .error (.wrapped "cannot start new reader".data key e)
    | .ok resp => .ok resp

/-- Outcome oracle for `azblob.UploadStreamToBlockBlob`: given the key and
the full byte stream (the upload drains the reader through the counting
wrapper), either fail or succeed; a success carries the remote-reported
creation timestamp, which the code discards. -/
abbrev UploadOracle := GoStr → List Nat → Except RemoteErr Time

/-- Model of `ReplicaClient.WriteSnapshot`: compute the key, record `startTime`
(`time.Now()` at the start of the upload, passed in as `now`), stream `rd`
through the `ReadCounter` into the upload; on success return the Info record
built from the inputs, the counted size, and `startTime.UTC()`. -/
def writeSnapshot (basePath gen : GoStr) (index : Nat) (rd : List Nat) (now : Time)
    (upload : UploadOracle) : Except ClientError SnapshotInfo :=
  match snapshotPath basePath gen index with
  | .error e => .error (.pathError ("cannot determine snapshot path: ".data ++ e))
  | .ok key =>
    match upload key rd with
    | .error e => .error (.remote e)
    | .ok _remoteTime =>
      .ok { generation := gen, index := index, size := (rd.length : Int),
            createdAt := toUTC now }

/-- Model of `ReplicaClient.WriteWALSegment`: same shape as `writeSnapshot` at the
WAL-segment key of `pos`. -/
def writeWALSegment (basePath : GoStr) (pos : Pos) (rd : List Nat) (now : Time)
    (upload : UploadOracle) : Except ClientError WALSegmentInfo :=
  match walSegmentPath basePath pos.generation pos.index pos.offset with
  | .error e => .error (.pathError ("cannot determine wal segment path: ".data ++ e))
  | .ok key =>
    match upload key rd with
    | .error e => .error (.remote e)
    | .ok _remoteTime =>
      .ok { generation := pos.generation, index := pos.index, offset := pos.offset,
            size := (rd.length : Int), createdAt := toUTC now }

/-- Decoding step of `snapshotIterator.fetch` for one listing entry:
`path.Base` the key, parse it, and on success build the `SnapshotInfo`;
a parse failure means the entry is skipped (`continue`). -/
def snapshotDecode (gen : GoStr) (item : BlobItem) : Option SnapshotInfo :=
  match parseSnapshotKey (goPathBase item.name) with
  | .error _ => none
  | .ok index =>
    some { generation := gen, index := index, size := item.contentLength,
           createdAt := toUTC item.creationTime }

/-- Decoding step of `walSegmentIterator.fetch` for one listing entry. -/
def walSegmentDecode (gen : GoStr) (item : BlobItem) : Option WALSegmentInfo :=
  match parseWALSegmentKey (goPathBase item.name) with
  | .error _ => none
  | .ok (index, offset) =>
    some { generation := gen, index := index, offset := offset,
           size := item.contentLength, createdAt := toUTC item.creationTime }

/-- The marker loop of `snapshotIterator.fetch`, sequentialised: returns the
ordered list of infos streamed into the channel and the error value the
goroutine returns (`none` = normal termination; a listing error stops the
loop and is returned, page items after it are never requested). -/
def snapshotFetchPages (gen : GoStr) : Pages → List SnapshotInfo × Option RemoteErr
  | [] => ([], none)
  | .error e :: _ => ([], some e)
  | .ok items :: rest =>
    let (l, r) := snapshotFetchPages gen rest
    (items.filterMap (snapshotDecode gen) ++ l, r)

/-- The marker loop of `walSegmentIterator.fetch`, sequentialised. -/
def walFetchPages (gen : GoStr) : Pages → List WALSegmentInfo × Option RemoteErr
  | [] => ([], none)
  | .error e :: _ => ([], some e)
  | .ok items :: rest =>
    let (l, r) := walFetchPages gen rest
    (items.filterMap (walSegmentDecode gen) ++ l, r)

/-- The fetch goroutine returns either a listing/path error (wrapped as an
opaque message for the path case) or nil; either way the deferred
`close(itr.ch)` runs. -/
inductive FetchErr
  | pathErr (msg : GoStr)
  | listErr (e : RemoteErr)
deriving DecidableEq, Repr

/-- Model of `snapshotIterator.fetch`: resolve the snapshots prefix (a malformed
generation aborts before any page), then run the marker loop. -/
def snapshotFetch (basePath gen : GoStr) (pages : Pages) :
    List SnapshotInfo × Option FetchErr :=
  match snapshotsPath basePath gen with
  | .error e => ([], some (.pathErr ("cannot determine snapshots path: ".data ++ e)))
  | .ok _dir =>
    let (l, r) := snapshotFetchPages gen pages
    (l, r.map .listErr)

/-- Model of `walSegmentIterator.fetch`: resolve the WAL prefix, then run the loop. -/
def walSegmentFetch (basePath gen : GoStr) (pages : Pages) :
    List WALSegmentInfo × Option FetchErr :=
  match walPath basePath gen with
  | .error e => ([], some (.pathErr ("cannot determine wal path: ".data ++ e)))
  | .ok _dir =>
    let (l, r) := walFetchPages gen pages
    (l, r.map .listErr)

/-- Consumer-side state of `snapshotIterator` (the `walSegmentIterator` is
identical up to the entry type; we state the iterator claims on this one and
the WAL ordering claim on the fetch output).  `pending` is what the fetch
loop streamed and the consumer has not yet received; after the fetch loop
returns, the deferred `close(itr.ch)` makes an empty `pending` behave as a
closed channel.  `fetchErr` is the value the goroutine returned, observable
only through `g.Wait()` in `Close`.  `err` is the `itr.err` field: no
statement in the source ever assigns it, so it stays `none` forever. -/
structure SnapIterState where
  pending : List SnapshotInfo
  fetchErr : Option FetchErr
  err : Option FetchErr
  info : SnapshotInfo
  ctxDone : Bool
deriving DecidableEq, Repr

/-- Build the iterator state right after construction: the fetch goroutine's
whole output is waiting to be handed off in order. -/
def mkSnapshotIterator (basePath gen : GoStr) (pages : Pages) : SnapIterState :=
  let (l, r) := snapshotFetch basePath gen pages
  { pending := l, fetchErr := r, err := none, info := default, ctxDone := false }

/-- Model of `snapshotIterator.Next`: false immediately if `itr.err` is set; false on
a cancelled context or a closed, drained channel; otherwise receive the next
info and store it as current. -/
def snapNext (s : SnapIterState) : Bool × SnapIterState :=
  if s.err.isSome then (false, s)
  else if s.ctxDone then (false, s)
  else
    match s.pending with
    | [] => (false, s)
    | i :: rest => (true, { s with pending := rest, info := i })

/-- Model of `snapshotIterator.Err`: returns the `itr.err` field. -/
def snapErr (s : SnapIterState) : Option FetchErr := s.err

/-- Model of `snapshotIterator.Close`: `err = itr.err`; cancel; then if `g.Wait()`
returned an error and `err` is still nil, return the goroutine's error. -/
def snapClose (s : SnapIterState) : Option FetchErr :=
  match s.err with
  | some e => some e
  | none => s.fetchErr

/-- Run `n` consecutive `Next()` calls. -/
def snapRun (s : SnapIterState) : Nat → SnapIterState
  | 0 => s
  | n + 1 => snapRun (snapNext s).2 n

/-- All items the paginated listing returned before hitting a listing error
(the marker loop never requests a page past the first error). -/
def listedItems : Pages → List BlobItem
  | [] => []
  | .error _ :: _ => []
  | .ok items :: rest => items ++ listedItems rest

/-- Ascending (index, offset) order on WAL segment infos. -/
def posLt (a b : WALSegmentInfo) : Prop :=
  a.index < b.index ∨ (a.index = b.index ∧ a.offset < b.offset)

instance (a b : WALSegmentInfo) : Decidable (posLt a b) := by
  unfold posLt; infer_instance

/-- The snapshot key of `(generation, index)`, defaulting to `[]` when the
path codec rejects the generation (used to phrase theorems; the theorems'
hypotheses make the codec succeed). -/
def snapKeyD (basePath gen : GoStr) (index : Nat) : GoStr :=
  match snapshotPath basePath gen index with
  | .ok k => k
  | .error _ => []

/-- The WAL segment key of a position, defaulting to `[]` when the path
codec rejects the generation. -/
def walKeyD (basePath : GoStr) (p : Pos) : GoStr :=
  match walSegmentPath basePath p.generation p.index p.offset with
  | .ok k => k
  | .error _ => []

/-- A well-formed generation name used in concrete witnesses. -/
def genA : GoStr := "0123456789abcdef".data

/-- A fixed parsed URL used in concrete witnesses. -/
def sampleURL : URL :=
  { scheme := "https".data, host := "example.com".data,
    path := "/cont/p1/p2".data, rawQuery := "sig=abc".data }

/-- A parse oracle that accepts every string as `sampleURL` (deterministic,
like `url.Parse`). -/
def sampleParseURL : GoStr → Except GoStr URL := fun _ => .ok sampleURL

/-- A parse oracle whose URLs have an empty path. -/
def emptyPathParseURL : GoStr → Except GoStr URL := fun _ =>
  .ok { scheme := "https".data, host := "example.com".data,
        path := [], rawQuery := "sig=abc".data }

theorem goSplit_ne_nil (s : GoStr) (sep : Char) : goSplit s sep ≠ [] := by
  induction s with
  | nil => simp [goSplit]
  | cons c cs ih =>
    simp only [goSplit]
    split
    · simp
    · cases h : goSplit cs sep with
      | nil => exact absurd h ih
      | cons a t => simp

theorem goSplit_length_pos (s : GoStr) (sep : Char) : 1 ≤ (goSplit s sep).length := by
  have := goSplit_ne_nil s sep
  cases h : goSplit s sep with
  | nil => exact absurd h this
  | cons a t => simp

theorem char_toNat_inj {a b : Char} (h : a.toNat = b.toNat) : a = b := by
  have ha := Char.ofNat_toNat a
  have hb := Char.ofNat_toNat b
  rw [← ha, ← hb, h]

theorem hexVal_lt_iff {a b : Char} (ha : isHexDigit a = true) (hb : isHexDigit b = true) :
    (hexVal a < hexVal b ↔ a.toNat < b.toNat) := by
  simp only [isHexDigit, Bool.or_eq_true, Bool.and_eq_true, decide_eq_true_eq] at ha hb
  simp only [hexVal]
  split <;> split <;> omega

theorem hexVal_le_15 {a : Char} (ha : isHexDigit a = true) : hexVal a ≤ 15 := by
  simp only [isHexDigit, Bool.or_eq_true, Bool.and_eq_true, decide_eq_true_eq] at ha
  simp only [hexVal]; split <;> omega

theorem hexVal_inj {a b : Char} (ha : isHexDigit a = true) (hb : isHexDigit b = true)
    (h : hexVal a = hexVal b) : a = b := by
  apply char_toNat_inj
  simp only [isHexDigit, Bool.or_eq_true, Bool.and_eq_true, decide_eq_true_eq] at ha hb
  simp only [hexVal] at h
  split at h <;> split at h <;> omega

theorem hexToNat_lt_pow {s : GoStr} (h : s.all isHexDigit = true) :
    hexToNat s < 16 ^ s.length := by
  induction s with
  | nil => simp [hexToNat]
  | cons c t ih =>
    simp only [List.all_cons, Bool.and_eq_true] at h
    have h1 := hexVal_le_15 h.1
    have h2 := ih h.2
    simp only [hexToNat, List.length_cons, pow_succ]
    have hB : 0 < 16 ^ t.length := Nat.pos_pow_of_pos _ (by norm_num)
    calc hexVal c * 16 ^ t.length + hexToNat t
        < hexVal c * 16 ^ t.length + 16 ^ t.length := by omega
      _ = (hexVal c + 1) * 16 ^ t.length := by ring
      _ ≤ 16 * 16 ^ t.length := Nat.mul_le_mul_right _ (by omega)
      _ = 16 ^ t.length * 16 := by ring

theorem digit_block_lt {d1 d2 u v B : Nat} (hu : u < B) (hv : v < B) :
    d1 * B + u < d2 * B + v ↔ (d1 < d2 ∨ (d1 = d2 ∧ u < v)) := by
  constructor
  · intro h
    rcases Nat.lt_trichotomy d1 d2 with h' | rfl | h'
    · exact Or.inl h'
    · exact Or.inr ⟨rfl, by omega⟩
    · exfalso
      have : d2 * B + v < d1 * B + u := by
        calc d2 * B + v < d2 * B + B := by omega
          _ = (d2 + 1) * B := by ring
          _ ≤ d1 * B := Nat.mul_le_mul_right _ (by omega)
          _ ≤ d1 * B + u := by omega
      omega
  · rintro (h | ⟨rfl, h⟩)
    · calc d1 * B + u < d1 * B + B := by omega
        _ = (d1 + 1) * B := by ring
        _ ≤ d2 * B := Nat.mul_le_mul_right _ (by omega)
        _ ≤ d2 * B + v := by omega
    · omega

theorem digit_block_eq {d1 d2 u v B : Nat} (hu : u < B) (hv : v < B) :
    d1 * B + u = d2 * B + v ↔ (d1 = d2 ∧ u = v) := by
  constructor
  · intro h
    have hd : d1 = d2 := by
      by_contra hdd
      rcases Nat.lt_trichotomy d1 d2 with h' | h' | h'
      · have := (digit_block_lt hu hv).mpr (Or.inl h'); omega
      · exact hdd h'
      · have := (digit_block_lt hv hu).mpr (Or.inl h'); omega
    subst hd
    exact ⟨rfl, by omega⟩
  · rintro ⟨rfl, rfl⟩; rfl

theorem hex_lexLt_iff : ∀ {s t : GoStr}, s.length = t.length →
    s.all isHexDigit = true → t.all isHexDigit = true →
    (lexLt s t = true ↔ hexToNat s < hexToNat t) := by
  intro s
  induction s with
  | nil =>
    intro t hlen _ _
    cases t with
    | nil => simp [lexLt, hexToNat]
    | cons b t' => simp at hlen
  | cons a s' ih =>
    intro t hlen hs ht
    cases t with
    | nil => simp at hlen
    | cons b t' =>
      simp only [List.length_cons] at hlen
      have hlen' : s'.length = t'.length := by omega
      simp only [List.all_cons, Bool.and_eq_true] at hs ht
      have hu := hexToNat_lt_pow hs.2
      have hv := hexToNat_lt_pow ht.2
      rw [hlen'] at hu
      simp only [lexLt, hexToNat, hlen', Bool.or_eq_true, Bool.and_eq_true,
        decide_eq_true_eq]
      rw [digit_block_lt hu hv]
      constructor
      · rintro (h | ⟨rfl, h⟩)
        · exact Or.inl ((hexVal_lt_iff hs.1 ht.1).mpr h)
        · exact Or.inr ⟨rfl, (ih hlen' hs.2 ht.2).mp h⟩
      · rintro (h | ⟨hd, h⟩)
        · exact Or.inl ((hexVal_lt_iff hs.1 ht.1).mp h)
        · have : a = b := hexVal_inj hs.1 ht.1 hd
          exact Or.inr ⟨this, (ih hlen' hs.2 ht.2).mpr h⟩

theorem hexToNat_inj : ∀ {s t : GoStr}, s.length = t.length →
    s.all isHexDigit = true → t.all isHexDigit = true →
    hexToNat s = hexToNat t → s = t := by
  intro s
  induction s with
  | nil =>
    intro t hlen _ _ _
    cases t with
    | nil => rfl
    | cons b t' => simp at hlen
  | cons a s' ih =>
    intro t hlen hs ht h
    cases t with
    | nil => simp at hlen
    | cons b t' =>
      simp only [List.length_cons] at hlen
      have hlen' : s'.length = t'.length := by omega
      simp only [List.all_cons, Bool.and_eq_true] at hs ht
      have hu := hexToNat_lt_pow hs.2
      have hv := hexToNat_lt_pow ht.2
      rw [hlen'] at hu
      simp only [hexToNat, hlen'] at h
      obtain ⟨hd, hrest⟩ := (digit_block_eq hu hv).mp h
      have : a = b := hexVal_inj hs.1 ht.1 hd
      rw [this, ih hlen' hs.2 ht.2 hrest]

theorem lexLt_irrefl : ∀ s : GoStr, lexLt s s = false := by
  intro s
  induction s with
  | nil => rfl
  | cons a t ih => simp [lexLt, ih]

theorem lexLt_append_same : ∀ (p a b : GoStr), lexLt (p ++ a) (p ++ b) = lexLt a b := by
  intro p
  induction p with
  | nil => intro a b; rfl
  | cons c p' ih => intro a b; simp [lexLt, ih]

theorem lexLt_append_block : ∀ {a b : GoStr} (s t : GoStr), a.length = b.length →
    lexLt (a ++ s) (b ++ t) = (lexLt a b || (a = b && lexLt s t)) := by
  intro a
  induction a with
  | nil =>
    intro b s t hlen
    cases b with
    | nil => simp [lexLt]
    | cons y b' => simp at hlen
  | cons x a' ih =>
    intro b s t hlen
    cases b with
    | nil => simp at hlen
    | cons y b' =>
      simp only [List.length_cons] at hlen
      have hlen' : a'.length = b'.length := by omega
      have key := ih s t hlen'
      by_cases hxy : x = y
      · subst hxy
        by_cases hab : a' = b'
        · subst hab
          simp [lexLt, lexLt_append_same, lexLt_irrefl]
        · simp [lexLt, key, hab]
      · have hne : ¬(x :: a' = y :: b') := by simp [hxy]
        simp [lexLt, hne, hxy]


theorem takeWhile_all_append {p : Char → Bool} :
    ∀ {xs : GoStr}, (∀ x ∈ xs, p x = true) → ∀ ys,
      List.takeWhile p (xs ++ ys) = xs ++ List.takeWhile p ys := by
  intro xs
  induction xs with
  | nil => intro _ ys; simp
  | cons x xs' ih =>
    intro h ys
    have hx : p x = true := h x (List.mem_cons_self x xs')
    simp only [List.cons_append, List.takeWhile_cons, hx, if_true]
    rw [ih (fun a ha => h a (List.mem_cons_of_mem x ha)) ys]

theorem goPathBase_append (dir base : GoStr) (hne : base ≠ []) (hslash : '/' ∉ base) :
    goPathBase (dir ++ '/' :: base) = base := by
  have hs : dir ++ '/' :: base ≠ [] := by simp
  have hrev : (dir ++ '/' :: base).reverse = base.reverse ++ '/' :: dir.reverse := by
    simp
  obtain ⟨c, r, hcr⟩ : ∃ c r, base.reverse = c :: r := by
    cases hb : base.reverse with
    | nil => exact absurd (by simpa using congrArg List.reverse hb) hne
    | cons c r => exact ⟨c, r, rfl⟩
  have hc : c ∈ base := by
    have : c ∈ base.reverse := by rw [hcr]; exact List.mem_cons_self c r
    simpa using this
  have hcne : ¬(c = '/') := fun h => hslash (h ▸ hc)
  have hdrop :
      (dir ++ '/' :: base).reverse.dropWhile (fun x => x = '/')
        = (dir ++ '/' :: base).reverse := by
    rw [hrev, hcr]
    simp [List.dropWhile_cons, hcne]
  have hbase_all : ∀ x ∈ base.reverse, (fun x => decide ¬(x = '/')) x = true := by
    intro x hx
    have hxb : x ∈ base := by simpa using hx
    have hxne : ¬(x = '/') := fun h => hslash (h ▸ hxb)
    simp [hxne]
  have htake :
      (dir ++ '/' :: base).reverse.takeWhile (fun x => x ≠ '/') = base.reverse := by
    rw [hrev]
    rw [takeWhile_all_append hbase_all]
    simp [List.takeWhile_cons]
  unfold goPathBase
  rw [if_neg hs, hdrop]
  simp only [List.reverse_reverse]
  rw [if_neg hs, htake, List.reverse_reverse]

theorem parseWALSegmentKey_ok {key : GoStr} {i o : Nat}
    (h : parseWALSegmentKey key = .ok (i, o)) :
    ∃ i8 o8, key = i8 ++ '_' :: (o8 ++ ".wal.lz4".data) ∧
      i8.length = 8 ∧ i8.all isHexDigit = true ∧
      o8.length = 8 ∧ o8.all isHexDigit = true ∧
      i = hexToNat i8 ∧ o = hexToNat o8 := by
  unfold parseWALSegmentKey at h
  split at h
  case isTrue hc =>
    obtain ⟨hl1, hh1, hu, hl2, hh2, hsuf⟩ := hc
    rw [Except.ok.injEq, Prod.mk.injEq] at h
    refine ⟨key.take 8, ((key.drop 8).drop 1).take 8, ?_, hl1, hh1, hl2, hh2,
      h.1.symm, h.2.symm⟩
    conv_lhs => rw [← List.take_append_drop 8 key]
    congr 1
    conv_lhs => rw [← List.take_append_drop 1 (key.drop 8)]
    rw [hu]
    simp only [List.singleton_append, List.cons.injEq, true_and]
    conv_lhs => rw [← List.take_append_drop 8 ((key.drop 8).drop 1)]
    rw [hsuf]
  case isFalse => cases h

theorem walKey_lexLt_iff {k1 k2 : GoStr} {i1 o1 i2 o2 : Nat}
    (h1 : parseWALSegmentKey k1 = .ok (i1, o1))
    (h2 : parseWALSegmentKey k2 = .ok (i2, o2)) :
    (lexLt k1 k2 = true ↔ (i1 < i2 ∨ (i1 = i2 ∧ o1 < o2))) := by
  obtain ⟨a8, c8, hk1, hal, hah, hcl, hch, hi1, ho1⟩ := parseWALSegmentKey_ok h1
  obtain ⟨b8, d8, hk2, hbl, hbh, hdl, hdh, hi2, ho2⟩ := parseWALSegmentKey_ok h2
  subst hk1 hk2 hi1 hi2 ho1 ho2
  rw [lexLt_append_block _ _ (hal.trans hbl.symm)]
  have hinner :
      lexLt ('_' :: (c8 ++ ".wal.lz4".data)) ('_' :: (d8 ++ ".wal.lz4".data))
        = lexLt c8 d8 := by
    have : lexLt ('_' :: (c8 ++ ".wal.lz4".data)) ('_' :: (d8 ++ ".wal.lz4".data))
        = lexLt (c8 ++ ".wal.lz4".data) (d8 ++ ".wal.lz4".data) := by
      simp [lexLt]
    rw [this, lexLt_append_block _ _ (hcl.trans hdl.symm)]
    by_cases hcd : c8 = d8
    · subst hcd; simp [lexLt_irrefl]
    · simp [hcd]
  rw [hinner]
  have hAiff : lexLt a8 b8 = true ↔ hexToNat a8 < hexToNat b8 :=
    hex_lexLt_iff (hal.trans hbl.symm) hah hbh
  have hCiff : lexLt c8 d8 = true ↔ hexToNat c8 < hexToNat d8 :=
    hex_lexLt_iff (hcl.trans hdl.symm) hch hdh
  have hABeq : a8 = b8 ↔ hexToNat a8 = hexToNat b8 :=
    ⟨fun h => by rw [h], hexToNat_inj (hal.trans hbl.symm) hah hbh⟩
  simp only [Bool.or_eq_true, Bool.and_eq_true, decide_eq_true_eq]
  rw [hAiff, hCiff, hABeq]

theorem pairwise_filterMap_of {α β : Type} {R : α → α → Prop} {S : β → β → Prop}
    (f : α → Option β) :
    ∀ {l : List α},
      (∀ a ∈ l, ∀ b ∈ l, ∀ x y, R a b → f a = some x → f b = some y → S x y) →
      l.Pairwise R → (l.filterMap f).Pairwise S := by
  intro l
  induction l with
  | nil => intro _ _; simp
  | cons a l' ih =>
    intro H hp
    rw [List.pairwise_cons] at hp
    obtain ⟨ha, hl'⟩ := hp
    have H' : ∀ a' ∈ l', ∀ b ∈ l', ∀ x y, R a' b → f a' = some x → f b = some y → S x y :=
      fun a' ha' b hb => H a' (List.mem_cons_of_mem a ha') b (List.mem_cons_of_mem a hb)
    rw [List.filterMap_cons]
    cases hfa : f a with
    | none => exact ih H' hl'
    | some x =>
      rw [List.pairwise_cons]
      refine ⟨?_, ih H' hl'⟩
      intro y hy
      obtain ⟨b, hb, hfb⟩ := List.mem_filterMap.mp hy
      exact H a (List.mem_cons_self a l') b (List.mem_cons_of_mem a hb) x y (ha b hb) hfa hfb

theorem walFetchPages_fst (gen : GoStr) : ∀ pages : Pages,
    (walFetchPages gen pages).1 = (listedItems pages).filterMap (walSegmentDecode gen) := by
  intro pages
  induction pages with
  | nil => rfl
  | cons p rest ih =>
    cases p with
    | error e => rfl
    | ok items => simp [walFetchPages, listedItems, List.filterMap_append, ih]

theorem snapshotFetchPages_fst (gen : GoStr) : ∀ pages : Pages,
    (snapshotFetchPages gen pages).1 = (listedItems pages).filterMap (snapshotDecode gen) := by
  intro pages
  induction pages with
  | nil => rfl
  | cons p rest ih =>
    cases p with
    | error e => rfl
    | ok items => simp [snapshotFetchPages, listedItems, List.filterMap_append, ih]

theorem snapshotPath_ok {gen : GoStr} (basePath : GoStr) (index : Nat)
    (h : isGenerationName gen = true) :
    snapshotPath basePath gen index = .ok (snapKeyD basePath gen index) := by
  simp [snapKeyD, snapshotPath, snapshotsPath, generationPath, h, Except.map]

theorem walSegmentPath_ok {p : Pos} (basePath : GoStr)
    (h : isGenerationName p.generation = true) :
    walSegmentPath basePath p.generation p.index p.offset = .ok (walKeyD basePath p) := by
  simp [walKeyD, walSegmentPath, walPath, generationPath, h, Except.map]

theorem walSegmentPath_err {g : GoStr} (basePath : GoStr) (i o : Nat)
    (h : isGenerationName g = false) :
    walSegmentPath basePath g i o = .error ("invalid generation name".data) := by
  simp [walSegmentPath, walPath, generationPath, h, Except.map]

theorem isNotExists_blobNotFound :
    isNotExists (some (.storage serviceCodeBlobNotFound)) = true := by
  simp [isNotExists]

theorem deleteGenerationItems_all (oracle : DeleteOracle) :
    ∀ items : List BlobItem, (∀ it ∈ items, isNotExists (oracle it.name) = true) →
      deleteGenerationItems items oracle = (items.map (fun it => it.name), .ok ()) := by
  intro items
  induction items with
  | nil => intro _; rfl
  | cons it rest ih =>
    intro h
    have hit := h it (List.mem_cons_self it rest)
    have hrest := ih (fun x hx => h x (List.mem_cons_of_mem it hx))
    simp [deleteGenerationItems, hit, hrest]

theorem deleteGenerationPages_all (oracle : DeleteOracle) :
    ∀ itemss : List (List BlobItem),
      (∀ items ∈ itemss, ∀ it ∈ items, isNotExists (oracle it.name) = true) →
      deleteGenerationPages oracle (itemss.map Except.ok)
        = ((itemss.flatten).map (fun it => it.name), .ok ()) := by
  intro itemss
  induction itemss with
  | nil => intro _; rfl
  | cons items rest ih =>
    intro h
    have h1 := deleteGenerationItems_all oracle items (h items (List.mem_cons_self items rest))
    have h2 := ih (fun x hx => h x (List.mem_cons_of_mem items hx))
    simp [deleteGenerationPages, h1, h2, List.flatten]

theorem deleteWALSegments_append (basePath : GoStr) (oracle : DeleteOracle) :
    ∀ (pre rest : List Pos),
      (∀ q ∈ pre, isGenerationName q.generation = true ∧
        (oracle (walKeyD basePath q) = none ∨
          isNotExists (oracle (walKeyD basePath q)) = true)) →
      deleteWALSegments basePath (pre ++ rest) oracle
        = (pre.map (walKeyD basePath) ++ (deleteWALSegments basePath rest oracle).1,
           (deleteWALSegments basePath rest oracle).2) := by
  intro pre
  induction pre with
  | nil => intro rest _; simp
  | cons q pre' ih =>
    intro rest h
    obtain ⟨hq, hora⟩ := h q (List.mem_cons_self q pre')
    have ih' := ih rest (fun x hx => h x (List.mem_cons_of_mem q hx))
    simp only [List.cons_append, deleteWALSegments, walSegmentPath_ok basePath hq]
    rcases hora with hnone | hnf
    · have hnx : isNotExists (oracle (walKeyD basePath q)) = false := by
        rw [hnone]; rfl
      simp [hnx, hnone, ih']
    · simp [hnf, ih']

/-- C3: for every delete operation (DeleteSnapshot on one key,
DeleteWALSegments per position, DeleteGeneration per listed object), a
not-found result from the remote store is treated as success: DeleteSnapshot
on an already-absent key returns nil, and the per-object loops continue past
not-found deletions (visiting every key) instead of failing. -/
theorem delete_notfound_is_success (basePath gen : GoStr) (index : Nat)
    (oracle : DeleteOracle) (positions : List Pos) (itemss : List (List BlobItem))
    (hgen : isGenerationName gen = true)
    (hsnap : isNotExists (oracle (snapKeyD basePath gen index)) = true)
    (hpos : ∀ p ∈ positions, isGenerationName p.generation = true ∧
      isNotExists (oracle (walKeyD basePath p)) = true)
    (hitems : ∀ items ∈ itemss, ∀ it ∈ items, isNotExists (oracle it.name) = true) :
    deleteSnapshot basePath gen index oracle = ([snapKeyD basePath gen index], .ok ()) ∧
    deleteWALSegments basePath positions oracle
      = (positions.map (walKeyD basePath), .ok ()) ∧
    deleteGeneration basePath gen (itemss.map Except.ok) oracle
      = ((itemss.flatten).map (fun it => it.name), .ok ()) := by
  refine ⟨?_, ?_, ?_⟩
  · simp [deleteSnapshot, snapshotPath_ok basePath index hgen, hsnap]
  · induction positions with
    | nil => rfl
    | cons p rest ih =>
      obtain ⟨hp, hnf⟩ := hpos p (List.mem_cons_self p rest)
      have ih' := ih (fun x hx => hpos x (List.mem_cons_of_mem p hx))
      simp [deleteWALSegments, walSegmentPath_ok basePath hp, hnf, ih']
  · have hgp : generationPath basePath gen
        = .ok (goPathJoin (generationsPath basePath) gen) := by
      simp [generationPath, hgen]
    simp [deleteGeneration, hgp, deleteGenerationPages_all oracle itemss hitems]

theorem delete_notfound_is_success_witness :
    deleteSnapshot [] genA 0 (fun _ => some (.storage serviceCodeBlobNotFound))
        = ([snapKeyD [] genA 0], .ok ()) ∧
    deleteWALSegments [] [⟨genA, 0, 0⟩, ⟨genA, 0, 4096⟩]
        (fun _ => some (.storage serviceCodeBlobNotFound))
      = ([walKeyD [] ⟨genA, 0, 0⟩, walKeyD [] ⟨genA, 0, 4096⟩], .ok ()) ∧
    deleteGeneration [] genA [Except.ok [⟨"k1".data, 1, ⟨0, false⟩⟩]]
        (fun _ => some (.storage serviceCodeBlobNotFound))
      = (["k1".data], .ok ()) := by
  have h := delete_notfound_is_success [] genA 0
    (fun _ => some (.storage serviceCodeBlobNotFound))
    [⟨genA, 0, 0⟩, ⟨genA, 0, 4096⟩] [[⟨"k1".data, 1, ⟨0, false⟩⟩]]
    (by decide) (by decide) (by decide) (by decide)
  exact ⟨h.1, h.2.1, h.2.2⟩

/-- C4: DeleteWALSegments processes its list of positions sequentially in
the given order and returns on the first error that is not a not-found
(including a path-encoding error for a malformed generation), leaving every
later position undeleted (no delete is invoked past the failing position);
if every delete succeeds or reports not-found, it returns nil. -/
theorem deleteWALSegments_first_error (basePath : GoStr) (oracle : DeleteOracle)
    (pre post : List Pos) (p : Pos)
    (hpre : ∀ q ∈ pre, isGenerationName q.generation = true ∧
      (oracle (walKeyD basePath q) = none ∨
        isNotExists (oracle (walKeyD basePath q)) = true)) :
    (isGenerationName p.generation = false →
      deleteWALSegments basePath (pre ++ p :: post) oracle
        = (pre.map (walKeyD basePath),
           .error (.pathError ("cannot determine wal segment path: ".data
             ++ "invalid generation name".data)))) ∧
    (∀ e, isGenerationName p.generation = true →
      oracle (walKeyD basePath p) = some e → isNotExists (some e) = false →
      deleteWALSegments basePath (pre ++ p :: post) oracle
        = (pre.map (walKeyD basePath) ++ [walKeyD basePath p],
           .error (.wrapped "cannot delete wal segment".data (walKeyD basePath p) e))) ∧
    (∀ l : List Pos, (∀ q ∈ l, isGenerationName q.generation = true ∧
        (oracle (walKeyD basePath q) = none ∨
          isNotExists (oracle (walKeyD basePath q)) = true)) →
      deleteWALSegments basePath l oracle = (l.map (walKeyD basePath), .ok ())) := by
  refine ⟨?_, ?_, ?_⟩
  · intro hbad
    rw [deleteWALSegments_append basePath oracle pre (p :: post) hpre]
    simp [deleteWALSegments, walSegmentPath_err basePath p.index p.offset hbad]
  · intro e hp hora hnx
    rw [deleteWALSegments_append basePath oracle pre (p :: post) hpre]
    simp [deleteWALSegments, walSegmentPath_ok basePath hp, hora, hnx]
  · intro l hl
    have := deleteWALSegments_append basePath oracle l [] hl
    simpa [deleteWALSegments] using this

theorem deleteWALSegments_first_error_witness :
    deleteWALSegments [] [(⟨genA, 0, 0⟩ : Pos), ⟨"bad".data, 1, 0⟩, ⟨genA, 2, 0⟩]
        (fun _ => some (.storage serviceCodeBlobNotFound))
      = ([walKeyD [] ⟨genA, 0, 0⟩],
         .error (.pathError ("cannot determine wal segment path: ".data
           ++ "invalid generation name".data))) ∧
    deleteWALSegments [] [(⟨genA, 0, 0⟩ : Pos)]
        (fun _ => some (.storage serviceCodeBlobNotFound))
      = ([walKeyD [] ⟨genA, 0, 0⟩], .ok ()) := by
  have h := deleteWALSegments_first_error []
    (fun _ => some (.storage serviceCodeBlobNotFound))
    [⟨genA, 0, 0⟩] [⟨genA, 2, 0⟩] ⟨"bad".data, 1, 0⟩ (by decide)
  exact ⟨h.1 (by decide), h.2.2 [⟨genA, 0, 0⟩] (by decide)⟩

/-- C5: for every SnapshotReader and WALSegmentReader call where the remote
store reports the object as not found, the operation fails with the generic
store-agnostic not-exist error (`os.ErrNotExist`), not a store-specific
error type; every other remote error is wrapped with the failing key and
propagated. -/
theorem reader_notfound_generic (basePath gen : GoStr) (index : Nat)
    (download : DownloadOracle) (pos : Pos) (download2 : DownloadOracle)
    (hgen : isGenerationName gen = true)
    (hpgen : isGenerationName pos.generation = true) :
    (download (snapKeyD basePath gen index) = .error (.storage serviceCodeBlobNotFound) →
      snapshotReader basePath gen index download = .error .notExist) ∧
    (∀ e, download (snapKeyD basePath gen index) = .error e →
      isNotExists (some e) = false →
      snapshotReader basePath gen index download
        = .error (.wrapped "cannot start new reader".data (snapKeyD basePath gen index) e)) ∧
    (download2 (walKeyD basePath pos) = .error (.storage serviceCodeBlobNotFound) →
      walSegmentReader basePath pos download2 = .error .notExist) ∧
    (∀ e, download2 (walKeyD basePath pos) = .error e →
      isNotExists (some e) = false →
      walSegmentReader basePath pos download2
        = .error (.wrapped "cannot start new reader".data (walKeyD basePath pos) e)) := by
  refine ⟨?_, ?_, ?_, ?_⟩
  · intro h
    simp [snapshotReader, snapshotPath_ok basePath index hgen, h, isNotExists_blobNotFound]
  · intro e h hnx
    simp [snapshotReader, snapshotPath_ok basePath index hgen, h, hnx]
  · intro h
    simp [walSegmentReader, walSegmentPath_ok basePath hpgen, h, isNotExists_blobNotFound]
  · intro e h hnx
    simp [walSegmentReader, walSegmentPath_ok basePath hpgen, h, hnx]

theorem reader_notfound_generic_witness :
    snapshotReader [] genA 0 (fun _ => .error (.storage serviceCodeBlobNotFound))
      = .error .notExist ∧
    walSegmentReader [] ⟨genA, 1, 2⟩ (fun _ => .error (.other "conn reset".data))
      = .error (.wrapped "cannot start new reader".data (walKeyD [] ⟨genA, 1, 2⟩)
          (.other "conn reset".data)) := by
  have h := reader_notfound_generic [] genA 0
    (fun _ => .error (.storage serviceCodeBlobNotFound))
    ⟨genA, 1, 2⟩ (fun _ => .error (.other "conn reset".data)) (by decide) (by decide)
  exact ⟨h.1 (by decide), h.2.2.2 (.other "conn reset".data) (by decide) (by decide)⟩

/-- C6: for every successful WriteSnapshot and WriteWALSegment, the returned
Info record carries the input coordinates unchanged, Size equal to the
number of bytes read from the source through the counting wrapper, and
CreatedAt equal to the UTC wall-clock time captured at the start of the
upload call (the remote-reported timestamp is discarded). -/
theorem write_info_fields (basePath gen : GoStr) (index : Nat) (rd : List Nat)
    (now : Time) (upload : UploadOracle) (pos : Pos) (rd2 : List Nat) (now2 : Time)
    (upload2 : UploadOracle) :
    (∀ info, writeSnapshot basePath gen index rd now upload = .ok info →
      info.generation = gen ∧ info.index = index ∧ info.size = (rd.length : Int) ∧
      info.createdAt = toUTC now) ∧
    (∀ info, writeWALSegment basePath pos rd2 now2 upload2 = .ok info →
      info.generation = pos.generation ∧ info.index = pos.index ∧
      info.offset = pos.offset ∧ info.size = (rd2.length : Int) ∧
      info.createdAt = toUTC now2) := by
  constructor
  · intro info h
    unfold writeSnapshot at h
    split at h
    · cases h
    · split at h
      · cases h
      · cases h; exact ⟨rfl, rfl, rfl, rfl⟩
  · intro info h
    unfold writeWALSegment at h
    split at h
    · cases h
    · split at h
      · cases h
      · cases h; exact ⟨rfl, rfl, rfl, rfl, rfl⟩

theorem write_info_fields_witness :
    ({ generation := genA, index := 3, size := (4 : Int),
       createdAt := toUTC ⟨100, false⟩ } : SnapshotInfo).generation = genA ∧
    ({ generation := genA, index := 3, size := (4 : Int),
       createdAt := toUTC ⟨100, false⟩ } : SnapshotInfo).size = ((4 : Nat) : Int) ∧
    ({ generation := genA, index := 3, size := (4 : Int),
       createdAt := toUTC ⟨100, false⟩ } : SnapshotInfo).createdAt = toUTC ⟨100, false⟩ := by
  have h := (write_info_fields [] genA 3 [9, 9, 9, 9] ⟨100, false⟩
    (fun _ _ => .ok ⟨777, true⟩) ⟨genA, 0, 0⟩ [] ⟨0, false⟩
    (fun _ _ => .ok ⟨777, true⟩)).1
    { generation := genA, index := 3, size := (4 : Int), createdAt := toUTC ⟨100, false⟩ }
    (by decide)
  exact ⟨h.1, h.2.2.1, h.2.2.2⟩

/-- C7: NewReplicaClient parses the capability URL once at construction: the
first path segment (after trimming the leading slash) becomes the container
name, the remaining segments joined by `/` become the key prefix, the raw
capability URL is stored verbatim, and Init builds the container handle by
replacing only the path component of the parsed URL with `/container`,
leaving scheme, host and query parameters unaltered. -/
theorem construction_splits_url (parseURL : GoStr → Except GoStr URL)
    (sasUrl : GoStr) (u : URL) (c : ReplicaClient)
    (hu : parseURL sasUrl = .ok u)
    (hc : newReplicaClient parseURL sasUrl = .ok c) :
    c.container = (goSplit (goTrimPrefix u.path ['/']) '/').headD [] ∧
    c.path = (if (goSplit (goTrimPrefix u.path ['/']) '/').length > 1
              then goJoin (goSplit (goTrimPrefix u.path ['/']) '/').tail '/' else []) ∧
    c.sasURL = sasUrl ∧
    clientInit parseURL c none
      = .ok ⟨{ scheme := u.scheme, host := u.host,
               path := '/' :: c.container, rawQuery := u.rawQuery }⟩ := by
  simp only [newReplicaClient, hu] at hc
  rw [if_neg (Nat.not_lt.mpr (goSplit_length_pos (goTrimPrefix u.path ['/']) '/'))] at hc
  rw [Except.ok.injEq] at hc
  subst hc
  refine ⟨rfl, rfl, rfl, ?_⟩
  simp only [clientInit, hu]

theorem construction_splits_url_witness :
    ({ container := "cont".data, path := "p1/p2".data,
       sasURL := "u".data } : ReplicaClient).container
      = (goSplit (goTrimPrefix sampleURL.path ['/']) '/').headD [] ∧
    clientInit sampleParseURL ⟨"cont".data, "p1/p2".data, "u".data⟩ none
      = .ok ⟨{ scheme := sampleURL.scheme, host := sampleURL.host,
               path := '/' :: "cont".data, rawQuery := sampleURL.rawQuery }⟩ := by
  have h := construction_splits_url sampleParseURL ("u".data) sampleURL
    ⟨"cont".data, "p1/p2".data, "u".data⟩ rfl (by decide)
  exact ⟨h.1, h.2.2.2⟩

/-- C9: for every client successfully returned by NewReplicaClient, Init can
never return an error: its only failure branch re-parses the same stored
URL string that already parsed at construction, so Init always succeeds,
building the handle on first call and returning the cached handle
thereafter. -/
theorem init_never_fails (parseURL : GoStr → Except GoStr URL) (sasUrl : GoStr)
    (c : ReplicaClient) (hc : newReplicaClient parseURL sasUrl = .ok c) :
    (∀ st, ∃ h, clientInit parseURL c st = .ok h) ∧
    (∀ h, clientInit parseURL c (some h) = .ok h) := by
  cases hp : parseURL sasUrl with
  | error e => simp [newReplicaClient, hp] at hc
  | ok u =>
    simp only [newReplicaClient, hp] at hc
    rw [if_neg (Nat.not_lt.mpr (goSplit_length_pos (goTrimPrefix u.path ['/']) '/'))] at hc
    rw [Except.ok.injEq] at hc
    have hsas : c.sasURL = sasUrl := by rw [← hc]
    constructor
    · intro st
      cases st with
      | some h => exact ⟨h, rfl⟩
      | none =>
        refine ⟨⟨{ u with path := '/' :: c.container }⟩, ?_⟩
        simp [clientInit, hsas, hp]
    · intro h
      rfl

theorem init_never_fails_witness :
    (∃ h, clientInit sampleParseURL ⟨"cont".data, "p1/p2".data, "u".data⟩ none = .ok h) ∧
    clientInit sampleParseURL ⟨"cont".data, "p1/p2".data, "u".data⟩ (some ⟨sampleURL⟩)
      = .ok ⟨sampleURL⟩ := by
  have h := init_never_fails sampleParseURL ("u".data)
    ⟨"cont".data, "p1/p2".data, "u".data⟩ (by decide)
  exact ⟨h.1 none, h.2 ⟨sampleURL⟩⟩

/-- C10: NewReplicaClient never returns its missing-container-name error for
any input whose URL parses (the split always yields at least one element, so
the guard is unreachable), and a capability URL with an empty path produces
a client whose container name and path prefix are both empty rather than an
error. -/
theorem missing_container_unreachable (parseURL : GoStr → Except GoStr URL) :
    (∀ sasUrl u, parseURL sasUrl = .ok u →
      newReplicaClient parseURL sasUrl ≠ .error .missingContainer) ∧
    (∀ sasUrl u, parseURL sasUrl = .ok u → u.path = [] →
      ∃ c, newReplicaClient parseURL sasUrl = .ok c ∧
        c.container = [] ∧ c.path = []) := by
  constructor
  · intro sasUrl u hu
    simp only [newReplicaClient, hu]
    rw [if_neg (Nat.not_lt.mpr (goSplit_length_pos (goTrimPrefix u.path ['/']) '/'))]
    intro hcon
    cases hcon
  · intro sasUrl u hu hpath
    refine ⟨{ container := [], path := [], sasURL := sasUrl }, ?_, rfl, rfl⟩
    simp only [newReplicaClient, hu, hpath]
    rfl

theorem missing_container_unreachable_witness :
    newReplicaClient emptyPathParseURL "y".data ≠ .error .missingContainer ∧
    (∃ c, newReplicaClient emptyPathParseURL "y".data = .ok c ∧
      c.container = [] ∧ c.path = []) := by
  have h := missing_container_unreachable emptyPathParseURL
  exact ⟨h.1 ("y".data) _ rfl, h.2 ("y".data) _ rfl rfl⟩

theorem snapshotFetchPages_skip (gen : GoStr) (it : BlobItem)
    (hit : snapshotDecode gen it = none) :
    ∀ (pre : Pages) (post : Pages) (is1 is2 : List BlobItem),
      snapshotFetchPages gen (pre ++ .ok (is1 ++ it :: is2) :: post)
        = snapshotFetchPages gen (pre ++ .ok (is1 ++ is2) :: post) := by
  intro pre
  induction pre with
  | nil =>
    intro post is1 is2
    simp [snapshotFetchPages, List.filterMap_append, List.filterMap_cons, hit]
  | cons p rest ih =>
    intro post is1 is2
    cases p with
    | error e => rfl
    | ok items => simp [snapshotFetchPages, ih]

theorem walFetchPages_skip (gen : GoStr) (it : BlobItem)
    (hit : walSegmentDecode gen it = none) :
    ∀ (pre : Pages) (post : Pages) (is1 is2 : List BlobItem),
      walFetchPages gen (pre ++ .ok (is1 ++ it :: is2) :: post)
        = walFetchPages gen (pre ++ .ok (is1 ++ is2) :: post) := by
  intro pre
  induction pre with
  | nil =>
    intro post is1 is2
    simp [walFetchPages, List.filterMap_append, List.filterMap_cons, hit]
  | cons p rest ih =>
    intro post is1 is2
    cases p with
    | error e => rfl
    | ok items => simp [walFetchPages, ih]

/-- C8: during iteration (snapshot and WAL-segment fetch loops), every
listing entry whose key fails the type-specific parse function is silently
skipped: it is not yielded, does not abort iteration, and surfaces no error,
so the fetch outcome on a listing containing the malformed entry equals the
outcome on the same listing with the entry removed. -/
theorem fetch_skips_malformed :
    (∀ (basePath gen : GoStr) (pre post : Pages) (is1 is2 : List BlobItem)
        (it : BlobItem),
      (∃ msg, parseSnapshotKey (goPathBase it.name) = .error msg) →
      snapshotFetch basePath gen (pre ++ .ok (is1 ++ it :: is2) :: post)
        = snapshotFetch basePath gen (pre ++ .ok (is1 ++ is2) :: post)) ∧
    (∀ (basePath gen : GoStr) (pre post : Pages) (is1 is2 : List BlobItem)
        (it : BlobItem),
      (∃ msg, parseWALSegmentKey (goPathBase it.name) = .error msg) →
      walSegmentFetch basePath gen (pre ++ .ok (is1 ++ it :: is2) :: post)
        = walSegmentFetch basePath gen (pre ++ .ok (is1 ++ is2) :: post)) := by
  constructor
  · intro basePath gen pre post is1 is2 it hmsg
    obtain ⟨msg, hmsg⟩ := hmsg
    have hdec : snapshotDecode gen it = none := by simp [snapshotDecode, hmsg]
    unfold snapshotFetch
    cases snapshotsPath basePath gen with
    | error e => rfl
    | ok dir => rw [snapshotFetchPages_skip gen it hdec pre post is1 is2]
  · intro basePath gen pre post is1 is2 it hmsg
    obtain ⟨msg, hmsg⟩ := hmsg
    have hdec : walSegmentDecode gen it = none := by simp [walSegmentDecode, hmsg]
    unfold walSegmentFetch
    cases walPath basePath gen with
    | error e => rfl
    | ok dir => rw [walFetchPages_skip gen it hdec pre post is1 is2]

theorem fetch_skips_malformed_witness :
    snapshotFetch [] genA
        [Except.ok [⟨"not-a-valid-key".data, 5, ⟨1, false⟩⟩]]
      = snapshotFetch [] genA [Except.ok []] ∧
    walSegmentFetch [] genA
        [Except.ok [⟨"not-a-valid-key".data, 5, ⟨1, false⟩⟩]]
      = walSegmentFetch [] genA [Except.ok []] := by
  constructor
  · have h := fetch_skips_malformed.1 [] genA [] []
      [] [] ⟨"not-a-valid-key".data, 5, ⟨1, false⟩⟩
      ⟨"invalid snapshot path".data, by decide⟩
    simpa using h
  · have h := fetch_skips_malformed.2 [] genA [] []
      [] [] ⟨"not-a-valid-key".data, 5, ⟨1, false⟩⟩
      ⟨"invalid wal segment path".data, by decide⟩
    simpa using h

theorem snapNext_fields (s : SnapIterState) :
    ((snapNext s).2).err = s.err ∧ ((snapNext s).2).fetchErr = s.fetchErr ∧
    ((snapNext s).2).ctxDone = s.ctxDone := by
  unfold snapNext
  split
  · exact ⟨rfl, rfl, rfl⟩
  · split
    · exact ⟨rfl, rfl, rfl⟩
    · split
      · exact ⟨rfl, rfl, rfl⟩
      · exact ⟨rfl, rfl, rfl⟩

theorem snapRun_fields (n : Nat) : ∀ s : SnapIterState,
    (snapRun s n).err = s.err ∧ (snapRun s n).fetchErr = s.fetchErr ∧
    (snapRun s n).ctxDone = s.ctxDone := by
  induction n with
  | zero => intro s; exact ⟨rfl, rfl, rfl⟩
  | succ n ih =>
    intro s
    have h1 := snapNext_fields s
    have h2 := ih (snapNext s).2
    exact ⟨h2.1.trans h1.1, h2.2.1.trans h1.2.1, h2.2.2.trans h1.2.2⟩

theorem snapRun_pending (n : Nat) : ∀ s : SnapIterState,
    s.err = none → s.ctxDone = false →
    (snapRun s n).pending = s.pending.drop n := by
  induction n with
  | zero => intro s _ _; simp [snapRun]
  | succ n ih =>
    intro s h hc
    have herr : (snapNext s).2.err = none := (snapNext_fields s).1.trans h
    have hctx : (snapNext s).2.ctxDone = false := (snapNext_fields s).2.2.trans hc
    have hs : snapRun s (n + 1) = snapRun (snapNext s).2 n := rfl
    rw [hs, ih (snapNext s).2 herr hctx]
    have hsome : s.err.isSome = false := by rw [h]; rfl
    cases hp : s.pending with
    | nil =>
      have : (snapNext s).2 = s := by simp [snapNext, hsome, hc, hp]
      rw [this, hp]
      simp
    | cons i rest =>
      have : (snapNext s).2 = { s with pending := rest, info := i } := by
        simp [snapNext, hsome, hc, hp]
      rw [this]
      simp

theorem mkSnapshotIterator_eq (basePath gen : GoStr) (pages : Pages) :
    mkSnapshotIterator basePath gen pages
      = { pending := (snapshotFetch basePath gen pages).1,
          fetchErr := (snapshotFetch basePath gen pages).2,
          err := none, info := default, ctxDone := false } := by
  unfold mkSnapshotIterator
  rfl

/-- C1 counterexample: with a listing error `boom`, the fetch goroutine
returns that error, `Next()` returns false (the deferred channel close, not
the sticky-error branch: no statement in the source ever assigns `itr.err`),
and `Err()` then returns nil rather than the recorded error — the error is
only observable through `Close()`. -/
theorem iterator_err_nil_after_fetch_error :
    (snapshotFetch [] genA [Except.error (RemoteErr.other "boom".data)]).2
      = some (.listErr (.other "boom".data)) ∧
    (snapNext (mkSnapshotIterator [] genA
        [Except.error (RemoteErr.other "boom".data)])).1 = false ∧
    snapErr (snapNext (mkSnapshotIterator [] genA
        [Except.error (RemoteErr.other "boom".data)])).2 = none ∧
    snapClose (snapNext (mkSnapshotIterator [] genA
        [Except.error (RemoteErr.other "boom".data)])).2
      = some (.listErr (.other "boom".data)) := by
  decide

/-- C1 (amended): when the background fetch loop fails, the error is the
goroutine's return value, surfaced only through `Close()`: the iterator's
`err` field is never assigned, so `Err()` keeps returning nil, every
`Next()` call after the streamed entries are drained returns false (because
the deferred `close` of the hand-off channel makes receives yield zero
values, not because of the sticky-error short-circuit, which is dead code),
and `Close()` returns the fetch error. -/
theorem iterator_error_surfaced_via_close (basePath gen : GoStr) (pages : Pages)
    (e : FetchErr) (n : Nat)
    (h : (snapshotFetch basePath gen pages).2 = some e) :
    snapErr (snapRun (mkSnapshotIterator basePath gen pages) n) = none ∧
    snapClose (snapRun (mkSnapshotIterator basePath gen pages) n) = some e ∧
    ((snapshotFetch basePath gen pages).1.length ≤ n →
      (snapNext (snapRun (mkSnapshotIterator basePath gen pages) n)).1 = false) := by
  have hmk := mkSnapshotIterator_eq basePath gen pages
  have hfields := snapRun_fields n (mkSnapshotIterator basePath gen pages)
  have herr0 : (mkSnapshotIterator basePath gen pages).err = none := by rw [hmk]
  have hctx0 : (mkSnapshotIterator basePath gen pages).ctxDone = false := by rw [hmk]
  have hfe0 : (mkSnapshotIterator basePath gen pages).fetchErr = some e := by
    rw [hmk]; exact h
  have herrN : (snapRun (mkSnapshotIterator basePath gen pages) n).err = none :=
    hfields.1.trans herr0
  have hctxN : (snapRun (mkSnapshotIterator basePath gen pages) n).ctxDone = false :=
    hfields.2.2.trans hctx0
  refine ⟨herrN, ?_, ?_⟩
  · unfold snapClose
    rw [herrN]
    exact hfields.2.1.trans hfe0
  · intro hn
    have hpend : (snapRun (mkSnapshotIterator basePath gen pages) n).pending = [] := by
      rw [snapRun_pending n _ herr0 hctx0, hmk]
      exact List.drop_eq_nil_of_le hn
    have hsome : (snapRun (mkSnapshotIterator basePath gen pages) n).err.isSome = false := by
      rw [herrN]; rfl
    simp [snapNext, hsome, hctxN, hpend]

theorem iterator_error_surfaced_via_close_witness :
    snapErr (snapRun (mkSnapshotIterator [] genA
        [Except.error (RemoteErr.other "oops".data)]) 2) = none ∧
    snapClose (snapRun (mkSnapshotIterator [] genA
        [Except.error (RemoteErr.other "oops".data)]) 2)
      = some (.listErr (.other "oops".data)) ∧
    (snapNext (snapRun (mkSnapshotIterator [] genA
        [Except.error (RemoteErr.other "oops".data)]) 2)).1 = false := by
  have h := iterator_error_surfaced_via_close [] genA
    [Except.error (RemoteErr.other "oops".data)] (.listErr (.other "oops".data)) 2
    (by decide)
  exact ⟨h.1, h.2.1, h.2.2 (by decide)⟩

theorem walSegmentFetch_fst {basePath gen dir : GoStr} (pages : Pages)
    (hdir : walPath basePath gen = .ok dir) :
    (walSegmentFetch basePath gen pages).1
      = (listedItems pages).filterMap (walSegmentDecode gen) := by
  cases hq : walFetchPages gen pages with
  | mk l r =>
    have : (walSegmentFetch basePath gen pages).1 = l := by
      simp [walSegmentFetch, hdir, hq]
    rw [this, ← walFetchPages_fst gen pages, hq]

/-- C2: for every generation, the WAL-segment iterator yields segments in
ascending (index, offset) order: encoded keys render index and offset as
fixed-width zero-padded hexadecimal, so the lexicographic order of two
well-formed keys coincides with numeric (index, offset) order (first
conjunct), and the fetch loop preserves listing order when streaming decoded
entries, so a lexicographically sorted listing under the generation's WAL
prefix yields an (index, offset)-sorted sequence (second conjunct). -/
theorem wal_listing_order :
    (∀ (k1 k2 : GoStr) (i1 o1 i2 o2 : Nat),
      parseWALSegmentKey k1 = .ok (i1, o1) → parseWALSegmentKey k2 = .ok (i2, o2) →
      (lexLt k1 k2 = true ↔ (i1 < i2 ∨ (i1 = i2 ∧ o1 < o2)))) ∧
    (∀ (basePath gen dir : GoStr) (pages : Pages),
      walPath basePath gen = .ok dir →
      (∀ it ∈ listedItems pages, it.name = dir ++ '/' :: goPathBase it.name ∧
        goPathBase it.name ≠ [] ∧ '/' ∉ goPathBase it.name) →
      (listedItems pages).Pairwise (fun a b => lexLt a.name b.name = true) →
      (walSegmentFetch basePath gen pages).1.Pairwise posLt) := by
  constructor
  · intro k1 k2 i1 o1 i2 o2 h1 h2
    exact walKey_lexLt_iff h1 h2
  · intro basePath gen dir pages hdir hwf hsorted
    rw [walSegmentFetch_fst pages hdir]
    refine pairwise_filterMap_of (walSegmentDecode gen) ?_ hsorted
    intro a ha b hb x y hR hfa hfb
    obtain ⟨hnameA, hneA, hslA⟩ := hwf a ha
    obtain ⟨hnameB, hneB, hslB⟩ := hwf b hb
    cases hpa : parseWALSegmentKey (goPathBase a.name) with
    | error e => simp [walSegmentDecode, hpa] at hfa
    | ok ioa =>
      cases hpb : parseWALSegmentKey (goPathBase b.name) with
      | error e => simp [walSegmentDecode, hpb] at hfb
      | ok iob =>
        obtain ⟨ia, oa⟩ := ioa
        obtain ⟨ib, ob⟩ := iob
        have hxa : x.index = ia ∧ x.offset = oa := by
          simp [walSegmentDecode, hpa] at hfa
          rw [← hfa]
          exact ⟨rfl, rfl⟩
        have hyb : y.index = ib ∧ y.offset = ob := by
          simp [walSegmentDecode, hpb] at hfb
          rw [← hfb]
          exact ⟨rfl, rfl⟩
        have h1 : a.name = (dir ++ ['/']) ++ goPathBase a.name := by
          simpa using hnameA
        have h2 : b.name = (dir ++ ['/']) ++ goPathBase b.name := by
          simpa using hnameB
        rw [h1, h2, lexLt_append_same] at hR
        have hkey := (walKey_lexLt_iff hpa hpb).mp hR
        unfold posLt
        rw [hxa.1, hxa.2, hyb.1, hyb.2]
        exact hkey

theorem wal_listing_order_witness :
    (walSegmentFetch [] genA
      [Except.ok
        [⟨"generations/0123456789abcdef/wal/00000000_00000000.wal.lz4".data, 10, ⟨0, false⟩⟩,
         ⟨"generations/0123456789abcdef/wal/00000000_00001000.wal.lz4".data, 20, ⟨0, false⟩⟩,
         ⟨"generations/0123456789abcdef/wal/00000001_00000000.wal.lz4".data, 30, ⟨0, false⟩⟩]]).1.Pairwise
      posLt := by
  exact wal_listing_order.2 [] genA ("generations/0123456789abcdef/wal".data)
    [Except.ok
      [⟨"generations/0123456789abcdef/wal/00000000_00000000.wal.lz4".data, 10, ⟨0, false⟩⟩,
       ⟨"generations/0123456789abcdef/wal/00000000_00001000.wal.lz4".data, 20, ⟨0, false⟩⟩,
       ⟨"generations/0123456789abcdef/wal/00000001_00000000.wal.lz4".data, 30, ⟨0, false⟩⟩]]
    (by decide) (by decide) (by decide)

end Abssas
